import Mathlib

set_option maxRecDepth 40000

/-!
A shallow embedding of src/k8s_manager.py.

The script is a menu-driven front end that shells out to aws, kubectl and
helm.  Interactive prompts are modelled as explicit string parameters of the
handler functions, and the external world (subprocess execution, the JSON
parser used on helm list output, the presence and content of the local values
file) is modelled as an oracle structure Sys.  Each handler returns the
boolean it returns in the source together with the ordered list of shell
command strings it passed to run_command, so that claims about which external
commands are invoked can be stated.  Characters are modelled at the ASCII
level (the Python str methods lower, strip, isdigit and the regular
expression class for whitespace are given their ASCII meaning).
-/

namespace K8s

/-- ASCII whitespace as matched by the Python regex class backslash-s and
stripped by str.strip: space, tab, newline, carriage return, vertical tab,
form feed. -/
def isPySpace (c : Char) : Bool :=
  c = ' ' || c = '\t' || c = '\n' || c = '\r' || c = Char.ofNat 11 || c = Char.ofNat 12

/-- ASCII lower-casing of one character, as str.lower does on ASCII input. -/
def pyLowerChar (c : Char) : Char :=
  if 'A' ≤ c ∧ c ≤ 'Z' then Char.ofNat (c.toNat + 32) else c

/-- Python str.lower restricted to ASCII strings. -/
def pyLower (s : String) : String := ⟨s.data.map pyLowerChar⟩

/-- Python str.strip restricted to ASCII strings: drop leading and trailing
whitespace. -/
def pyStripList (l : List Char) : List Char :=
  ((l.dropWhile isPySpace).reverse.dropWhile isPySpace).reverse

/-- Python str.strip on a String. -/
def pyStrip (s : String) : String := ⟨pyStripList s.data⟩

/-- Split a character list at each newline; mirrors Python str.split with
separator newline (an empty input yields one empty field). -/
def splitLines : List Char → List (List Char)
  | [] => [[]]
  | c :: cs =>
    if c = '\n' then [] :: splitLines cs
    else
      match splitLines cs with
      | [] => [[c]]
      | l :: ls => (c :: l) :: ls

/-- Python s.split on newline, on Strings. -/
def pySplitNl (s : String) : List String :=
  (splitLines s.data).map fun l => ⟨l⟩

/-- Python str.isdigit restricted to ASCII strings: nonempty and all
characters are decimal digits. -/
def isDigitStr (s : String) : Bool :=
  !s.data.isEmpty && s.data.all Char.isDigit

/-- Decimal value of a digit string, as Python int() computes it on the
strings accepted by the isdigit guard in the source. -/
def strToNat (s : String) : Nat :=
  s.data.foldl (fun acc c => acc * 10 + (c.toNat - 48)) 0

/-- The namespace-selection idiom the source repeats in deploy_prometheus,
delete_resources and check_resource_status: a digit string whose value is
between 1 and the list length picks the corresponding 1-indexed entry,
anything else is used as a literal name. -/
def selectFromList (namespaces : List String) (selection : String) : String :=
  if isDigitStr selection = true ∧ 1 ≤ strToNat selection ∧ strToNat selection ≤ namespaces.length
  then namespaces.getD (strToNat selection - 1) ""
  else selection

/-- The namespace-resolution block each of the three listing handlers runs
after kubectl get namespaces: when the command succeeded with nonempty
output, strip it, split it into lines and apply the selection idiom to the
user input; otherwise fall back to a directly prompted name. -/
def resolveNs (success : Bool) (output : String) (selection manual : String) : String :=
  if success = true ∧ output ≠ "" then
    selectFromList (pySplitNl (pyStrip output)) selection
  else manual

/-! Shell command strings built by the source. -/

/-- helm version probe. -/
def hvCmd : String := "helm version"

/-- helm install script download. -/
def curlCmd : String := "curl https://raw.githubusercontent.com/helm/helm/main/scripts/get-helm-3 | bash"

/-- helm repo add for the prometheus-community repository. -/
def addCmd : String := "helm repo add prometheus-community https://prometheus-community.github.io/helm-charts"

/-- helm repo update. -/
def updCmd : String := "helm repo update"

/-- kubectl namespace listing used by three handlers. -/
def gnsCmd : String := "kubectl get namespaces -o custom-columns=NAME:.metadata.name --no-headers"

/-- kubectl create namespace command. -/
def createNsCmd (ns : String) : String := "kubectl create namespace " ++ ns

/-- helm upgrade --install command for the prometheus chart. -/
def helmInstallCmd (rel ns : String) : String :=
  "helm upgrade --install " ++ rel ++
  " prometheus-community/prometheus --version 27.5.1 --values prometheus-values.yaml --namespace " ++ ns

/-- kubectl get pods in a namespace. -/
def getPodsCmd (ns : String) : String := "kubectl get pods -n " ++ ns

/-- kubectl get svc in a namespace. -/
def getSvcCmd (ns : String) : String := "kubectl get svc -n " ++ ns

/-- kubectl get ingress in a namespace. -/
def getIngressCmd (ns : String) : String := "kubectl get ingress -n " ++ ns

/-- kubectl get all in a namespace. -/
def getAllCmd (ns : String) : String := "kubectl get all -n " ++ ns

/-- helm list with JSON output, used by the delete handler. -/
def helmListCmd (ns : String) : String := "helm list -n " ++ ns ++ " -o json"

/-- helm list in plain form, used by the status handler. -/
def helmListPlainCmd (ns : String) : String := "helm list -n " ++ ns

/-- helm uninstall command. -/
def helmUninstallCmd (rel ns : String) : String :=
  "helm uninstall " ++ rel ++ " --namespace " ++ ns

/-- kubectl delete namespace command. -/
def delNsCmd (ns : String) : String := "kubectl delete namespace " ++ ns

/-- kubectl describe pod command. -/
def describePodCmd (p ns : String) : String := "kubectl describe pod " ++ p ++ " -n " ++ ns

/-- kubectl logs command. -/
def logsCmd (p ns : String) : String := "kubectl logs " ++ p ++ " -n " ++ ns

/-- kubectl describe svc command. -/
def describeSvcCmd (p ns : String) : String := "kubectl describe svc " ++ p ++ " -n " ++ ns

/-- kubectl get deployments in a namespace. -/
def getDeployCmd (ns : String) : String := "kubectl get deployments -n " ++ ns

/-- kubectl describe deployment command. -/
def describeDeployCmd (p ns : String) : String := "kubectl describe deployment " ++ p ++ " -n " ++ ns

/-- kubectl describe ingress command. -/
def describeIngressCmd (p ns : String) : String := "kubectl describe ingress " ++ p ++ " -n " ++ ns

/-- helm status command. -/
def helmStatusCmd (r ns : String) : String := "helm status " ++ r ++ " -n " ++ ns

/-- kubectl get events command. -/
def eventsCmd (ns : String) : String :=
  "kubectl get events --sort-by=.metadata.creationTimestamp -n " ++ ns

/-! The Command Runner (run_command, source lines 46 to 65). -/

/-- What the underlying subprocess.run call can do for one command: complete
with an exit code, stdout and stderr (the source passes check=True, so a
nonzero code surfaces as CalledProcessError), or raise some other exception
whose message is str(e). -/
inductive ExecOutcome where
  | completed (returncode : Int) (stdout stderr : String)
  | raised (msg : String)

/-- run_command: returns (True, stdout) when the command exits zero,
(False, stderr) when it exits nonzero, and (False, message) when execution
raised; it never propagates an exception (totality of this function). -/
def run_command (o : ExecOutcome) : Bool × String :=
  match o with
  | .completed rc out err => if rc = 0 then (true, out) else (false, err)
  | .raised msg => (false, msg)

/-! The external world seen by the handlers. -/

/-- Oracle for everything outside the script: run gives the Command Runner
result (success flag and captured output) for a command string; parseRel
models json.loads on helm list output, none meaning JSONDecodeError and some
giving the (name, chart) pairs; valuesFileExists and valuesFileContent model
the local prometheus-values.yaml file. -/
structure Sys where
  run : String → Bool × String
  parseRel : String → Option (List (String × String))
  valuesFileExists : Bool
  valuesFileContent : List Char

/-! The create-namespace handler (source lines 89 to 122). -/

/-- create_namespace with its three prompt answers made explicit.  Returns
the handler result and the list of commands passed to run_command. -/
def create_namespace (sys : Sys) (username purpose confirm : String) : Bool × List String :=
  if username = "" then (false, [])
  else if purpose = "" then (false, [])
  else
    let ns := username ++ "-" ++ purpose
    if pyLower confirm ≠ "y" then (false, [])
    else ((sys.run (createNsCmd ns)).1, [createNsCmd ns])

/-! The values-file text and the two re.sub substitutions of the deploy
handler (source lines 182 to 240).  The two patterns are modelled exactly,
with the semantics the Python re module gives them on this input class:
leftmost scanning, greedy quantifiers, dot not matching newline, global
replacement with scanning resuming after each replaced match. -/

/-- The fixed text of the generated default values file that precedes the
hosts key (template lines 1 to 27 of the f-string plus the indentation of
the hosts line). -/
def strA : String :=
  "prometheus-node-exporter:\n  enabled: false\nkube-state-metrics:\n  enabled: false\nalertmanager:\n  enabled: false\nserverFiles:\n  prometheus.yml:\n    scrape_configs:\n      - job_name: prometheus\n        static_configs:\n          - targets:\n              - localhost:9090\n      - job_name: node-exporter\n        static_configs:\n          - targets:\n              - kube-prometheus-stack-prometheus-node-exporter.monitoring:9100\n      - job_name: nginx\n        static_configs:\n          - targets:\n              - ingress-nginx-controller-metrics.ingress-nginx:10254\nserver:\n  persistentVolume:\n    enabled: false\n  ingress:\n    enabled: true\n    ingressClassName: nginx\n    "

/-- The hosts key, the newline and the indented dash of the single host
entry; this is also the fixed part of the first substitution replacement. -/
def strP : String := "hosts:\n      - "

/-- The fixed text between the host entry and the external-dns line. -/
def strC1 : String := "\n    annotations:\n      "

/-- The external-dns key up to and including the opening double quote; this
is also the fixed part of the second substitution replacement. -/
def strQ : String := "external-dns.alpha.kubernetes.io/hostname: \""

/-- The closing double quote and final newline of the template. -/
def strD : String := "\"\n"

/-- The default values file the deploy handler writes for a given hostname
(source lines 189 to 221). -/
def defaultValuesContent (h : List Char) : List Char :=
  strA.data ++ strP.data ++ h ++ strC1.data ++ strQ.data ++ h ++ strD.data

/-- Match attempt at the head of s for the first pattern,
hosts-colon backslash-s-star newline backslash-s-star dash space dot-star:
the head must read hosts-colon, then the maximal whitespace run must contain
a newline and be followed by dash space, and the greedy dot-star takes the
rest of that line.  Returns the total number of characters matched. -/
def tryH : List Char → Option Nat
  | 'h' :: 'o' :: 's' :: 't' :: 's' :: ':' :: rest =>
    let ws := rest.takeWhile isPySpace
    if ws.contains '\n' then
      match rest.dropWhile isPySpace with
      | '-' :: ' ' :: tail => some (6 + ws.length + 2 + (tail.takeWhile (· ≠ '\n')).length)
      | _ => none
    else none
  | _ => none

/-- Index of the last occurrence of a character in a list. -/
def lastIdxOf (a : Char) (l : List Char) : Option Nat :=
  match l.reverse.findIdx? (· = a) with
  | some j => some (l.length - 1 - j)
  | none => none

/-- The first six characters any match of the hosts pattern must carry. -/
def patH : List Char := ['h', 'o', 's', 't', 's', ':']

/-- The first twelve characters any match of the external-dns pattern must
carry. -/
def patE : List Char := ['e', 'x', 't', 'e', 'r', 'n', 'a', 'l', '-', 'd', 'n', 's']

/-- Predicate for one literal pattern character. -/
def litP (c : Char) : Char → Bool := fun x => x == c

/-- Predicate for an unescaped regex dot: any character but newline. -/
def wildP : Char → Bool := fun x => !(x == '\n')

/-- The first twelve characters of the external-dns pattern as a predicate
list. -/
def patEP : List (Char → Bool) := patE.map litP

/-- The 44-position head of the external-dns pattern: the key
external-dns.alpha.kubernetes.io/hostname with its three unescaped dots as
any-but-newline wildcards, then colon, space and the opening double
quote. -/
def patQ : List (Char → Bool) :=
  patEP ++ [wildP] ++ ['a', 'l', 'p', 'h', 'a'].map litP ++ [wildP] ++
  ['k', 'u', 'b', 'e', 'r', 'n', 'e', 't', 'e', 's'].map litP ++ [wildP] ++
  ['i', 'o', '/', 'h', 'o', 's', 't', 'n', 'a', 'm', 'e', ':', ' ', '"'].map litP

/-- Position-wise matching of a predicate list against the head of a
character list. -/
def matchPreds : List (Char → Bool) → List Char → Bool
  | [], _ => true
  | _ :: _, [] => false
  | p :: ps, c :: cs => p c && matchPreds ps cs

/-- Match attempt at the head of s for the second pattern, the external-dns
key with its three unescaped dots as any-but-newline wildcards, followed by
colon space quote, a greedy dot-star and a closing quote: the head must
satisfy the 44 positional predicates of patQ, and the greedy star makes the
match run to the last quote on the same line.  Returns the total number of
characters matched. -/
def tryA (s : List Char) : Option Nat :=
  if matchPreds patQ s then
    match lastIdxOf '"' ((s.drop 44).takeWhile (· ≠ '\n')) with
    | some j => some (44 + j + 1)
    | none => none
  else none

/-- Fuel-driven global substitution: at each position try the pattern; on a
match of n characters emit the replacement and resume after the match, else
copy one character.  The fuel argument only serves structural recursion; it
is always called with at least the length of the list. -/
def reSubAux (pat : List Char → Option Nat) (repl : List Char) : Nat → List Char → List Char
  | _, [] => []
  | 0, s => s
  | fuel + 1, c :: cs =>
    match pat (c :: cs) with
    | some n =>
      if n = 0 then c :: reSubAux pat repl fuel cs
      else repl ++ reSubAux pat repl fuel ((c :: cs).drop n)
    | none => c :: reSubAux pat repl fuel cs

/-- Global substitution of a pattern in a character list, the model of one
re.sub call. -/
def reSub (pat : List Char → Option Nat) (repl : List Char) (s : List Char) : List Char :=
  reSubAux pat repl s.length s

/-- The hostname rewrite the deploy handler applies to an existing values
file (source lines 233 and 234): first the hosts substitution, then the
external-dns substitution. -/
def updateHostname (h content : List Char) : List Char :=
  reSub tryA (strQ.data ++ h ++ ['"']) (reSub tryH (strP.data ++ h) content)

/-- The fixed prefix extended through the first five characters of the hosts
key; used to check windows that cross from the prefix into the key. -/
def strA5 : String := strA ++ "hosts"

/-- The rest of the hosts key and entry after the first five characters. -/
def strP5 : String := ":\n      - "

/-- The annotations block without its leading newline. -/
def strC1t : String := "    annotations:\n      "

/-- Window check: true when no position of the list starts with the given
pattern. -/
def noWin (p : List Char) : List Char → Bool
  | [] => true
  | c :: cs => if (c :: cs).take p.length = p then false else noWin p cs

/-- Window check for a positional predicate pattern: true when the pattern
matches at no position of the list. -/
def noWinP (ps : List (Char → Bool)) : List Char → Bool
  | [] => true
  | c :: cs => !(matchPreds ps (c :: cs)) && noWinP ps cs

/-- Characters a well-formed hostname is built from: ASCII letters, digits,
dot and hyphen.  These are exactly the characters that can appear in the
hostnames the deploy handler constructs or accepts for its own files. -/
def safeHostChar (c : Char) : Bool :=
  ('a' ≤ c && c ≤ 'z') || ('A' ≤ c && c ≤ 'Z') || ('0' ≤ c && c ≤ '9') || c = '.' || c = '-'

/-- The lines of the generated default values file, in order: 28 fixed lines,
the host entry, the annotations key, the external-dns line, and the empty
field after the final newline. -/
def defaultValuesLines (h : List Char) : List (List Char) :=
  [ "prometheus-node-exporter:".data, "  enabled: false".data,
    "kube-state-metrics:".data, "  enabled: false".data,
    "alertmanager:".data, "  enabled: false".data,
    "serverFiles:".data, "  prometheus.yml:".data, "    scrape_configs:".data,
    "      - job_name: prometheus".data, "        static_configs:".data,
    "          - targets:".data, "              - localhost:9090".data,
    "      - job_name: node-exporter".data, "        static_configs:".data,
    "          - targets:".data,
    "              - kube-prometheus-stack-prometheus-node-exporter.monitoring:9100".data,
    "      - job_name: nginx".data, "        static_configs:".data,
    "          - targets:".data,
    "              - ingress-nginx-controller-metrics.ingress-nginx:10254".data,
    "server:".data, "  persistentVolume:".data, "    enabled: false".data,
    "  ingress:".data, "    enabled: true".data, "    ingressClassName: nginx".data,
    "    hosts:".data ] ++
  [ "      - ".data ++ h, "    annotations:".data,
    "      ".data ++ strQ.data ++ h ++ ['"'], [] ]

/-! The deploy handler (source lines 124 to 260). -/

/-- The part of deploy_prometheus after helm is known to be available,
parameterised by the trace t0 accumulated while probing or installing helm.
Returns the result, the command trace, and the values-file content the
handler wrote (none when it failed before reaching the file step). -/
def deployCore (sys : Sys) (selection nsManual release hostname : String)
    (t0 : List String) : Bool × List String × Option (List Char) :=
  if ¬ (sys.run addCmd).1 then (false, t0 ++ [addCmd], none)
  else if ¬ (sys.run updCmd).1 then (false, t0 ++ [addCmd, updCmd], none)
  else
    let g := sys.run gnsCmd
    let ns := resolveNs g.1 g.2 selection nsManual
    let t1 := t0 ++ [addCmd, updCmd, gnsCmd]
    if ns = "" then (false, t1, none)
    else
      let rel := if release = "" then ns ++ "-prom" else release
      let host := if hostname = "" then ns ++ ".sctp-sandbox.com" else hostname
      let written :=
        if sys.valuesFileExists then updateHostname host.data sys.valuesFileContent
        else defaultValuesContent host.data
      if (sys.run (helmInstallCmd rel ns)).1 then
        (true, t1 ++ [helmInstallCmd rel ns, getPodsCmd ns, getSvcCmd ns, getIngressCmd ns],
         some written)
      else (false, t1 ++ [helmInstallCmd rel ns], some written)

/-- deploy_prometheus with its prompt answers made explicit: selection and
nsManual for the namespace step, release for the release-name prompt,
hostname for the ingress hostname prompt. -/
def deploy_prometheus (sys : Sys) (selection nsManual release hostname : String) :
    Bool × List String × Option (List Char) :=
  if (sys.run hvCmd).1 then deployCore sys selection nsManual release hostname [hvCmd]
  else if (sys.run curlCmd).1 then
    deployCore sys selection nsManual release hostname [hvCmd, curlCmd]
  else (false, [hvCmd, curlCmd], none)

/-! The delete handler (source lines 262 to 385). -/

/-- delete_resources with its prompt answers made explicit: choice for the
secondary menu, selection and nsManual for the namespace step, relSelection
and relManual for the release step of choice 1, confirm for the namespace
deletion confirmation of choice 2. -/
def delete_resources (sys : Sys)
    (choice selection nsManual relSelection relManual confirm : String) :
    Bool × List String :=
  if choice = "1" then
    let g := sys.run gnsCmd
    let ns := resolveNs g.1 g.2 selection nsManual
    if ns = "" then (false, [gnsCmd])
    else
      let l := sys.run (helmListCmd ns)
      let rel :=
        if l.1 = true ∧ l.2 ≠ "" ∧ pyStrip l.2 ≠ "[]" then
          match sys.parseRel l.2 with
          | some releases =>
            if isDigitStr relSelection = true ∧ 1 ≤ strToNat relSelection ∧
                strToNat relSelection ≤ releases.length
            then (releases.getD (strToNat relSelection - 1) ("", "")).1
            else relSelection
          | none => if relManual = "" then ns ++ "-prom" else relManual
        else if relManual = "" then ns ++ "-prom" else relManual
      ((sys.run (helmUninstallCmd rel ns)).1, [gnsCmd, helmListCmd ns, helmUninstallCmd rel ns])
  else if choice = "2" then
    let g := sys.run gnsCmd
    let ns := resolveNs g.1 g.2 selection nsManual
    if ns = "" then (false, [gnsCmd])
    else
      if pyLower confirm ≠ "yes" then (false, [gnsCmd, getAllCmd ns])
      else ((sys.run (delNsCmd ns)).1, [gnsCmd, getAllCmd ns, delNsCmd ns])
  else if choice = "3" then (true, [])
  else (false, [])

/-! The status handler (source lines 387 to 486). -/

/-- check_resource_status with its prompt answers made explicit: selection
and nsManual for the namespace step, resourceChoice for the seven-way menu,
detailName for the optional drill-down prompt, showLogs for the pod-log
prompt. -/
def check_resource_status (sys : Sys)
    (selection nsManual resourceChoice detailName showLogs : String) :
    Bool × List String :=
  let g := sys.run gnsCmd
  let ns := resolveNs g.1 g.2 selection nsManual
  if ns = "" then (false, [gnsCmd])
  else
    let cmds :=
      if resourceChoice = "1" then [getAllCmd ns, getIngressCmd ns, helmListPlainCmd ns]
      else if resourceChoice = "2" then
        [getPodsCmd ns] ++
        (if detailName ≠ "" then
          [describePodCmd detailName ns] ++
          (if pyLower showLogs = "y" then [logsCmd detailName ns] else [])
         else [])
      else if resourceChoice = "3" then
        [getSvcCmd ns] ++ (if detailName ≠ "" then [describeSvcCmd detailName ns] else [])
      else if resourceChoice = "4" then
        [getDeployCmd ns] ++ (if detailName ≠ "" then [describeDeployCmd detailName ns] else [])
      else if resourceChoice = "5" then
        [getIngressCmd ns] ++ (if detailName ≠ "" then [describeIngressCmd detailName ns] else [])
      else if resourceChoice = "6" then
        [helmListPlainCmd ns] ++ (if detailName ≠ "" then [helmStatusCmd detailName ns] else [])
      else if resourceChoice = "7" then [eventsCmd ns]
      else []
    (true, [gnsCmd] ++ cmds)

/-! Concrete oracles used to evaluate the handlers at specific inputs. -/

/-- A world in which every command succeeds and the namespace listing shows
the single namespace ns1. -/
def sysOk : Sys := ⟨fun _ => (true, "ns1\n"), fun _ => none, false, []⟩

/-- A world in which every command succeeds and the namespace listing shows
the single namespace team-prom. -/
def sysTeam : Sys := ⟨fun _ => (true, "team-prom\n"), fun _ => none, false, []⟩

/-- A world in which the namespace listing shows ns1 and the helm release
listing returns output that does not parse as JSON. -/
def sysFb : Sys :=
  ⟨fun c => if c = gnsCmd then (true, "ns1\n") else (true, "not json"),
   fun _ => none, false, []⟩

/-! Lemmas about the substitution scanner. -/

/-- The scanner result does not depend on the fuel once the fuel covers the
length of the list. -/
theorem reSubAux_fuel (pat : List Char → Option Nat) (r : List Char) :
    ∀ (f1 : Nat) (f2 : Nat) (s : List Char), s.length ≤ f1 → s.length ≤ f2 →
    reSubAux pat r f1 s = reSubAux pat r f2 s := by
  intro f1
  induction f1 with
  | zero =>
    intro f2 s h1 _
    have hs : s = [] := List.eq_nil_of_length_eq_zero (Nat.le_zero.mp h1)
    subst hs
    simp [reSubAux]
  | succ f ih =>
    intro f2 s h1 h2
    match s with
    | [] => simp [reSubAux]
    | c :: cs =>
      obtain ⟨f2x, rfl⟩ : ∃ f2x, f2 = f2x + 1 := ⟨f2 - 1, by simp at h2; omega⟩
      simp only [reSubAux]
      cases hp : pat (c :: cs) with
      | none =>
        rw [ih f2x cs (by simp at h1; omega) (by simp at h2; omega)]
      | some n =>
        by_cases hn : n = 0
        · simp only [if_pos hn]
          rw [ih f2x cs (by simp at h1; omega) (by simp at h2; omega)]
        · simp only [if_neg hn]
          rw [ih f2x ((c :: cs).drop n)
            (by simp [List.length_drop] at h1 ⊢; omega)
            (by simp [List.length_drop] at h2 ⊢; omega)]

/-- Copying a prefix that the pattern matches nowhere. -/
theorem reSubAux_skip (pat : List Char → Option Nat) (r : List Char) (x t : List Char)
    (hno : ∀ i, i < x.length → pat ((x ++ t).drop i) = none) :
    ∀ fuel, (x ++ t).length ≤ fuel →
    reSubAux pat r fuel (x ++ t) = x ++ reSubAux pat r (fuel - x.length) t := by
  induction x with
  | nil => intro fuel h; simp
  | cons c x ih =>
    intro fuel h
    obtain ⟨f, rfl⟩ : ∃ f, fuel = f + 1 := ⟨fuel - 1, by simp at h; omega⟩
    have h0 := hno 0 (by simp)
    simp only [List.drop_zero, List.cons_append] at h0
    simp only [List.cons_append, reSubAux, List.append_eq, h0]
    rw [ih (fun i hi => by
        have := hno (i + 1) (by simp; omega)
        simpa using this)
      f (by simp at h ⊢; omega)]
    simp [Nat.succ_sub_succ]

/-- One replacement step of the scanner. -/
theorem reSubAux_matchStep (pat : List Char → Option Nat) (r : List Char)
    (c : Char) (cs : List Char) (n fuel : Nat)
    (hp : pat (c :: cs) = some n) (hn : n ≠ 0) :
    reSubAux pat r (fuel + 1) (c :: cs) = r ++ reSubAux pat r fuel ((c :: cs).drop n) := by
  simp [reSubAux, hp, hn]

/-- Cropping a window that lies inside the left part of an append. -/
theorem take_drop_append (u t : List Char) (i w : Nat) (h : i + w ≤ u.length) :
    ((u ++ t).drop i).take w = (u.drop i).take w := by
  have h1 : i - u.length = 0 := by omega
  have h2 : w - (u.drop i).length = 0 := by simp [List.length_drop]; omega
  rw [List.drop_append_eq_append_drop, h1, List.drop_zero, List.take_append_eq_append_take,
    h2, List.take_zero, List.append_nil]

/-- Soundness of the window checker. -/
theorem noWin_spec (p : List Char) (hp : p ≠ []) :
    ∀ (u : List Char), noWin p u = true → ∀ i, (u.drop i).take p.length ≠ p := by
  intro u
  induction u with
  | nil =>
    intro _ i h
    simp at h
    exact hp h
  | cons c cs ih =>
    intro hno i
    rw [noWin] at hno
    split at hno
    · exact absurd hno (by simp)
    · match i with
      | 0 => simpa using fun h => by simp_all
      | i + 1 => simpa using ih hno i

/-- takeWhile over an append whose left part satisfies the predicate. -/
theorem takeWhile_append_all (q : Char → Bool) (x y : List Char)
    (hx : ∀ c ∈ x, q c = true) :
    (x ++ y).takeWhile q = x ++ y.takeWhile q := by
  induction x with
  | nil => simp
  | cons c cs ih =>
    simp only [List.cons_append, List.takeWhile_cons, hx c (by simp), if_true]
    rw [ih (fun c hc => hx c (by simp [hc]))]

/-- Dropping the left part of an append plus extra positions. -/
theorem drop_append_plus (u v : List Char) (k : Nat) :
    (u ++ v).drop (u.length + k) = v.drop k := by
  rw [List.drop_append_eq_append_drop]
  simp

/-! Shape facts about the two pattern matchers. -/

/-- Any hosts-pattern match starts with the six characters hosts-colon. -/
theorem tryH_take6 {s : List Char} {n : Nat} (h : tryH s = some n) : s.take 6 = patH := by
  unfold tryH at h
  split at h
  · rfl
  · exact absurd h (by simp)

/-- Any hosts-pattern match has a colon at index 5. -/
theorem tryH_get5 {s : List Char} {n : Nat} (h : tryH s = some n) : s[5]? = some ':' := by
  unfold tryH at h
  split at h
  · simp
  · exact absurd h (by simp)

/-- Positional matching is insensitive to what follows the pattern
positions. -/
theorem matchPreds_append (ps : List (Char → Bool)) :
    ∀ (x z : List Char), ps.length ≤ x.length →
    matchPreds ps (x ++ z) = matchPreds ps x := by
  induction ps with
  | nil => intro x z _; rfl
  | cons p ps ih =>
    intro x z h
    match x with
    | [] => simp at h
    | c :: cs =>
      simp only [List.cons_append, matchPreds, List.append_eq]
      rw [ih cs z (by simp at h; omega)]

/-- A true positional match forces each pattern position. -/
theorem matchPreds_get {ps : List (Char → Bool)} :
    ∀ {s : List Char}, matchPreds ps s = true →
    ∀ (i : Nat) (p : Char → Bool), ps[i]? = some p → ∃ c, s[i]? = some c ∧ p c = true := by
  induction ps with
  | nil => intro s _ i p hp; simp at hp
  | cons q ps ih =>
    intro s h i p hp
    match s with
    | [] => simp [matchPreds] at h
    | c :: cs =>
      simp only [matchPreds, Bool.and_eq_true] at h
      match i with
      | 0 =>
        simp only [List.getElem?_cons_zero, Option.some.injEq] at hp
        subst hp
        exact ⟨c, by simp, h.1⟩
      | i + 1 =>
        simp only [List.getElem?_cons_succ] at hp
        obtain ⟨d, hd, hpd⟩ := ih h.2 i p hp
        exact ⟨d, by simpa using hd, hpd⟩

/-- A true positional match against a literal-prefixed pattern forces the
literal prefix. -/
theorem matchPreds_prefix {pre : List Char} {rest : List (Char → Bool)} :
    ∀ {s : List Char}, matchPreds (pre.map litP ++ rest) s = true →
    s.take pre.length = pre := by
  induction pre with
  | nil => intro s _; rfl
  | cons a pre ih =>
    intro s h
    match s with
    | [] => simp [matchPreds] at h
    | c :: cs =>
      simp only [List.map_cons, List.cons_append, matchPreds, Bool.and_eq_true] at h
      have hca : c = a := by
        have := h.1
        simp only [litP, beq_iff_eq] at this
        exact this
      subst hca
      simp [ih h.2]

/-- Any external-dns-pattern match satisfies the 44 positional
predicates. -/
theorem tryA_matchPreds {s : List Char} {n : Nat} (h : tryA s = some n) :
    matchPreds patQ s = true := by
  unfold tryA at h
  split at h
  · assumption
  · exact absurd h (by simp)

/-- Any external-dns-pattern match starts with the twelve characters
external-dash-dns. -/
theorem tryA_take12 {s : List Char} {n : Nat} (h : tryA s = some n) : s.take 12 = patE := by
  have h1 := tryA_matchPreds h
  rw [patQ, patEP] at h1
  simp only [List.append_assoc] at h1
  simpa using matchPreds_prefix h1

/-- Any external-dns-pattern match starts with the letter e. -/
theorem tryA_get0 {s : List Char} {n : Nat} (h : tryA s = some n) : s[0]? = some 'e' := by
  obtain ⟨c, hc, hpc⟩ := matchPreds_get (tryA_matchPreds h) 0 (litP 'e') rfl
  simp only [litP, beq_iff_eq] at hpc
  subst hpc
  exact hc

/-- Any external-dns-pattern match has a slash at index 32. -/
theorem tryA_get32 {s : List Char} {n : Nat} (h : tryA s = some n) : s[32]? = some '/' := by
  obtain ⟨c, hc, hpc⟩ := matchPreds_get (tryA_matchPreds h) 32 (litP '/') rfl
  simp only [litP, beq_iff_eq] at hpc
  subst hpc
  exact hc

/-- Contrapositive form of the colon fact. -/
theorem tryH_none_of_get5 (s : List Char) (h : s[5]? ≠ some ':') : tryH s = none := by
  cases hp : tryH s with
  | none => rfl
  | some n => exact absurd (tryH_get5 hp) h

/-- Contrapositive form of the head-letter fact. -/
theorem tryA_none_of_get0 (s : List Char) (h : s[0]? ≠ some 'e') : tryA s = none := by
  cases hp : tryA s with
  | none => rfl
  | some n => exact absurd (tryA_get0 hp) h

/-- Contrapositive form of the slash fact. -/
theorem tryA_none_of_get32 (s : List Char) (h : s[32]? ≠ some '/') : tryA s = none := by
  cases hp : tryA s with
  | none => rfl
  | some n => exact absurd (tryA_get32 hp) h

/-- A safe hostname character is none of colon, slash, double quote,
newline. -/
theorem safe_ne (c : Char) (h : safeHostChar c = true) :
    c ≠ ':' ∧ c ≠ '/' ∧ c ≠ '"' ∧ c ≠ '\n' := by
  refine ⟨?_, ?_, ?_, ?_⟩ <;> intro he <;> subst he <;> revert h <;> decide

/-- Soundness of the positional window checker. -/
theorem noWinP_spec (ps : List (Char → Bool)) (hps : ps ≠ []) :
    ∀ (u : List Char), noWinP ps u = true → ∀ i, matchPreds ps (u.drop i) = false := by
  intro u
  induction u with
  | nil =>
    intro _ i
    simp only [List.drop_nil]
    match ps, hps with
    | p :: ps, _ => rfl
  | cons c cs ih =>
    intro h i
    rw [noWinP] at h
    simp only [Bool.and_eq_true, Bool.not_eq_true'] at h
    match i with
    | 0 => simpa using h.1
    | i + 1 => simpa using ih h.2 i

/-- One replacement step of the scanner, stated for a list that need not be
in head-normal form. -/
theorem reSubAux_matchGen (pat : List Char → Option Nat) (r : List Char) (s : List Char)
    (n : Nat) (hp : pat s = some n) (hn : n ≠ 0) (hs : s ≠ []) (fuel : Nat)
    (hf : 1 ≤ fuel) :
    reSubAux pat r fuel s = r ++ reSubAux pat r (fuel - 1) (s.drop n) := by
  match s, hs with
  | c :: cs, _ =>
    obtain ⟨f, rfl⟩ : ∃ f, fuel = f + 1 := ⟨fuel - 1, by omega⟩
    simpa using reSubAux_matchStep pat r c cs n f hp hn

/-! Concrete facts about the template segments, all by evaluation. -/

/-- Length of the fixed prefix. -/
theorem lenA : strA.data.length = 669 := by decide

/-- Length of the extended fixed prefix. -/
theorem lenA5 : strA5.data.length = 674 := by decide

/-- Length of the hosts segment. -/
theorem lenP : strP.data.length = 15 := by decide

/-- Length of the annotations segment. -/
theorem lenC1 : strC1.data.length = 24 := by decide

/-- Length of the external-dns key segment. -/
theorem lenQ : strQ.data.length = 44 := by decide

/-- Length of the closing segment. -/
theorem lenD : strD.data.length = 2 := by decide

/-- The prefix and the hosts segment regroup into the extended prefix and
its remainder. -/
theorem concatAP : strA.data ++ strP.data = strA5.data ++ strP5.data := by decide

/-- The annotations segment in head-normal form. -/
theorem strC1_cons : strC1.data = '\n' :: strC1t.data := by decide

/-- The closing segment in head-normal form. -/
theorem strD_cons : strD.data = '"' :: '\n' :: [] := by decide

/-- The hosts pattern matches nowhere in the extended fixed prefix. -/
theorem noWinH_A5 : noWin patH strA5.data = true := by decide

/-- The hosts pattern matches nowhere in the annotations and external-dns
segments. -/
theorem noWinH_C : noWin patH (strC1.data ++ strQ.data) = true := by decide

/-- The external-dns pattern matches nowhere in the fixed prefix and hosts
segments. -/
theorem noWinQ_AP : noWinP patQ (strA.data ++ strP.data) = true := by decide

/-- The scanner leaves the closing segment unchanged for the hosts
pattern. -/
theorem reSubAux_strD (f : Nat) (r : List Char) :
    reSubAux tryH r f strD.data = strD.data := by
  rw [strD_cons]
  match f with
  | 0 => rfl
  | 1 =>
    simp [reSubAux, show tryH ['"', '\n'] = none from by decide]
  | f + 2 =>
    simp [reSubAux, show tryH ['"', '\n'] = none from by decide,
      show tryH ['\n'] = none from by decide]

/-- The hosts pattern does match at the hosts segment: it consumes the key,
the whitespace containing the newline, the dash and space, and the
newline-free host entry that follows. -/
theorem tryH_match_here (z r : List Char) (hz : '\n' ∉ z) :
    tryH (strP.data ++ (z ++ ('\n' :: r))) = some (15 + z.length) := by
  have hP : strP.data =
      'h' :: 'o' :: 's' :: 't' :: 's' :: ':' ::
      '\n' :: ' ' :: ' ' :: ' ' :: ' ' :: ' ' :: ' ' :: '-' :: ' ' :: [] := by decide
  have htk : (z ++ ('\n' :: r)).takeWhile (fun x => !decide (x = '\n')) = z := by
    rw [takeWhile_append_all _ z ('\n' :: r) (fun c hc => by
      simp only [Bool.not_eq_true', decide_eq_false_iff_not]
      exact fun he => hz (he ▸ hc))]
    simp
  rw [hP]
  simp only [List.cons_append, List.nil_append]
  simp [tryH, isPySpace, htk]

/-- First substitution pass on the generated template: the hosts pattern
matches exactly once, at the hosts segment, and the replacement substitutes
the new hostname for the old host entry, leaving everything else
unchanged. -/
theorem pass1 (h0 h : List Char) (hnl : '\n' ∉ h0) (hcol : ':' ∉ h0) :
    reSub tryH (strP.data ++ h) (defaultValuesContent h0) =
      strA.data ++ (strP.data ++ (h ++ (strC1.data ++ (strQ.data ++ (h0 ++ strD.data))))) := by
  have hdv : defaultValuesContent h0 =
      strA.data ++ (strP.data ++ (h0 ++ (strC1.data ++ (strQ.data ++ (h0 ++ strD.data))))) := by
    simp [defaultValuesContent, List.append_assoc]
  rw [reSub, hdv]
  have hnoA : ∀ i, i < strA.data.length →
      tryH ((strA.data ++ (strP.data ++ (h0 ++ (strC1.data ++ (strQ.data ++ (h0 ++ strD.data)))))).drop i) = none := by
    intro i hi
    rw [lenA] at hi
    cases hp : tryH ((strA.data ++ (strP.data ++ (h0 ++ (strC1.data ++ (strQ.data ++ (h0 ++ strD.data)))))).drop i) with
    | none => rfl
    | some n =>
      exfalso
      have ht := tryH_take6 hp
      have hre : strA.data ++ (strP.data ++ (h0 ++ (strC1.data ++ (strQ.data ++ (h0 ++ strD.data))))) =
          strA5.data ++ (strP5.data ++ (h0 ++ (strC1.data ++ (strQ.data ++ (h0 ++ strD.data))))) := by
        rw [← List.append_assoc, ← List.append_assoc, concatAP]
        simp [List.append_assoc]
      rw [hre, take_drop_append _ _ i 6 (by rw [lenA5]; omega)] at ht
      have hnw := noWin_spec patH (by decide) strA5.data noWinH_A5 i
      rw [show patH.length = 6 from rfl] at hnw
      exact hnw ht
  rw [reSubAux_skip tryH (strP.data ++ h) strA.data _ hnoA _ (le_refl _)]
  rw [strC1_cons]
  simp only [List.cons_append]
  rw [reSubAux_matchGen tryH (strP.data ++ h) _ (15 + h0.length)
    (tryH_match_here h0 (strC1t.data ++ (strQ.data ++ (h0 ++ strD.data))) hnl)
    (by omega)
    (by
      apply List.ne_nil_of_length_pos
      simp only [List.length_append, lenP]
      omega)
    _
    (by simp only [List.length_append, List.length_cons, lenA, lenP]; omega)]
  have hdropP : (strP.data ++ (h0 ++ ('\n' :: (strC1t.data ++ (strQ.data ++ (h0 ++ strD.data)))))).drop
      (15 + h0.length) = '\n' :: (strC1t.data ++ (strQ.data ++ (h0 ++ strD.data))) := by
    rw [← List.append_assoc]
    rw [show 15 + h0.length = (strP.data ++ h0).length from by
      simp only [List.length_append, lenP]]
    exact List.drop_left _ _
  rw [hdropP]
  have hregroup : '\n' :: (strC1t.data ++ (strQ.data ++ (h0 ++ strD.data))) =
      (strC1.data ++ strQ.data) ++ (h0 ++ strD.data) := by
    rw [strC1_cons]
    simp [List.append_assoc]
  rw [hregroup]
  have hnoC : ∀ i, i < (strC1.data ++ strQ.data).length →
      tryH (((strC1.data ++ strQ.data) ++ (h0 ++ strD.data)).drop i) = none := by
    intro i hi
    rw [List.length_append, lenC1, lenQ] at hi
    by_cases hz : i + 6 ≤ 68
    · cases hp : tryH (((strC1.data ++ strQ.data) ++ (h0 ++ strD.data)).drop i) with
      | none => rfl
      | some n =>
        exfalso
        have ht := tryH_take6 hp
        rw [take_drop_append _ _ i 6 (by rw [List.length_append, lenC1, lenQ]; omega)] at ht
        have hnw := noWin_spec patH (by decide) _ noWinH_C i
        rw [show patH.length = 6 from rfl] at hnw
        exact hnw ht
    · apply tryH_none_of_get5
      rw [List.getElem?_drop, List.getElem?_append,
        if_neg (by rw [List.length_append, lenC1, lenQ]; omega)]
      intro hc
      have hm := List.getElem?_mem hc
      rcases List.mem_append.mp hm with hm | hm
      · exact hcol hm
      · revert hm; decide
  rw [reSubAux_skip tryH (strP.data ++ h) (strC1.data ++ strQ.data) _ hnoC _
    (by simp only [List.length_append, List.length_cons, lenA, lenP, lenC1, lenQ, lenD]; omega)]
  have hnoH0 : ∀ i, i < h0.length → tryH ((h0 ++ strD.data).drop i) = none := by
    intro i hi
    apply tryH_none_of_get5
    rw [List.getElem?_drop]
    intro hc
    have hm := List.getElem?_mem hc
    rcases List.mem_append.mp hm with hm | hm
    · exact hcol hm
    · revert hm; decide
  rw [reSubAux_skip tryH (strP.data ++ h) h0 _ hnoH0 _
    (by simp only [List.length_append, List.length_cons, lenA, lenP, lenC1, lenQ, lenD]; omega)]
  rw [reSubAux_strD]
  rw [strC1_cons]
  simp [List.append_assoc]

/-- A getElem fact at an index at or past k gives membership in the drop. -/
theorem mem_of_getElem?_ge (l : List Char) (k j : Nat) (c : Char) (hk : k ≤ j)
    (hc : l[j]? = some c) : c ∈ l.drop k := by
  apply List.getElem?_mem
  show (l.drop k)[j - k]? = some c
  rw [List.getElem?_drop]
  rwa [show k + (j - k) = j from by omega]

/-- A getElem fact at an index below k gives membership in the take. -/
theorem mem_of_getElem?_lt (l : List Char) (k j : Nat) (c : Char) (hj : j < k)
    (hc : l[j]? = some c) : c ∈ l.take k := by
  apply List.getElem?_mem
  show (l.take k)[j]? = some c
  rw [List.getElem?_take]
  simp [hj, hc]

/-- Length of the external-dns positional pattern. -/
theorem lenPatQ : patQ.length = 44 := by decide

/-- The external-dns key satisfies its own positional pattern. -/
theorem mQ : matchPreds patQ strQ.data = true := by decide

/-- No slash in the last eleven characters of the prefix and hosts
segments. -/
theorem slashAP : '/' ∉ (strA.data ++ strP.data).drop 673 := by decide

/-- No slash in the first 32 characters of the annotations and external-dns
segments. -/
theorem slashC1Q8 : '/' ∉ strC1.data ++ strQ.data.take 8 := by decide

/-- No letter e in the annotations segment. -/
theorem eFreeC1 : 'e' ∉ strC1.data := by decide

/-- Length of the combined prefix and hosts segments. -/
theorem lenAP : (strA.data ++ strP.data).length = 684 := by
  rw [List.length_append, lenA, lenP]

/-- The first 32 characters after the host entry are the annotations segment
and the first eight characters of the external-dns key. -/
theorem take32_C1Q (z : List Char) :
    (strC1.data ++ (strQ.data ++ z)).take 32 = strC1.data ++ strQ.data.take 8 := by
  rw [List.take_append_eq_append_take, List.take_append_eq_append_take, lenC1, lenQ]
  rw [show (32 : Nat) - 24 = 8 from rfl, show (8 : Nat) - 44 = 0 from rfl]
  rw [List.take_zero, List.append_nil]
  congr 1

/-- The scanner leaves a single newline unchanged for the external-dns
pattern. -/
theorem reSubAux_nl (f : Nat) (r : List Char) : reSubAux tryA r f ['\n'] = ['\n'] := by
  match f with
  | 0 => rfl
  | f + 1 => simp [reSubAux, show tryA ['\n'] = none from by decide]

/-- The last quote of a quote-terminated line sits right after the
quote-free text. -/
theorem lastIdxOf_snoc (z : List Char) :
    lastIdxOf '"' (z ++ ['"']) = some z.length := by
  unfold lastIdxOf
  rw [List.reverse_append]
  simp only [List.reverse_cons, List.reverse_nil, List.nil_append, List.singleton_append,
    List.findIdx?_cons]
  rw [if_pos (by decide)]
  simp [List.length_append]

/-- The external-dns pattern does match at the external-dns key: it consumes
the 44 key characters, the quote-free value and the closing quote. -/
theorem tryA_match_here (z : List Char) (hnl : '\n' ∉ z) :
    tryA (strQ.data ++ (z ++ strD.data)) = some (44 + z.length + 1) := by
  unfold tryA
  rw [matchPreds_append patQ strQ.data (z ++ strD.data) (by rw [lenPatQ, lenQ])]
  rw [if_pos mQ]
  rw [show (44 : Nat) = strQ.data.length from lenQ.symm, List.drop_left]
  rw [strD_cons]
  have htk : (z ++ ('"' :: '\n' :: [])).takeWhile (fun x => !decide (x = '\n')) =
      z ++ ['"'] := by
    rw [takeWhile_append_all _ z ('"' :: '\n' :: []) (fun c hc => by
      simp only [Bool.not_eq_true', decide_eq_false_iff_not]
      exact fun he => hnl (he ▸ hc))]
    simp [List.takeWhile_cons]
  have hpred : (fun x => decide ¬(x = '\n')) = (fun x => !decide (x = '\n')) := by
    funext x
    simp [decide_not]
  rw [show ((· ≠ '\n') : Char → Bool) = (fun x => !decide (x = '\n')) from hpred]
  rw [htk, lastIdxOf_snoc z, lenQ]

/-- Second substitution pass on the result of the first: the external-dns
pattern matches exactly once, at the external-dns key, and the replacement
substitutes the new hostname for the old annotation value. -/
theorem pass2 (h0 h : List Char) (hnl0 : '\n' ∉ h0) (hsl : '/' ∉ h) :
    reSub tryA (strQ.data ++ h ++ ['"'])
      (strA.data ++ (strP.data ++ (h ++ (strC1.data ++ (strQ.data ++ (h0 ++ strD.data)))))) =
      strA.data ++ (strP.data ++ (h ++ (strC1.data ++ (strQ.data ++ (h ++ strD.data))))) := by
  rw [reSub]
  rw [show strA.data ++ (strP.data ++ (h ++ (strC1.data ++ (strQ.data ++ (h0 ++ strD.data))))) =
      (strA.data ++ strP.data) ++ (h ++ (strC1.data ++ (strQ.data ++ (h0 ++ strD.data))))
    from by simp [List.append_assoc]]
  have hnoAP : ∀ i, i < (strA.data ++ strP.data).length →
      tryA (((strA.data ++ strP.data) ++
        (h ++ (strC1.data ++ (strQ.data ++ (h0 ++ strD.data))))).drop i) = none := by
    intro i hi
    rw [lenAP] at hi
    by_cases hz : i + 44 ≤ 684
    · cases hp : tryA (((strA.data ++ strP.data) ++
          (h ++ (strC1.data ++ (strQ.data ++ (h0 ++ strD.data))))).drop i) with
      | none => rfl
      | some n =>
        exfalso
        have hm := tryA_matchPreds hp
        rw [show ((strA.data ++ strP.data) ++
            (h ++ (strC1.data ++ (strQ.data ++ (h0 ++ strD.data))))).drop i =
            (strA.data ++ strP.data).drop i ++
              (h ++ (strC1.data ++ (strQ.data ++ (h0 ++ strD.data)))) from by
          rw [List.drop_append_eq_append_drop,
            show i - (strA.data ++ strP.data).length = 0 from by rw [lenAP]; omega,
            List.drop_zero]] at hm
        rw [matchPreds_append patQ _ _ (by
          rw [lenPatQ, List.length_drop, lenAP]; omega)] at hm
        rw [noWinP_spec patQ (List.ne_nil_of_length_pos (by rw [lenPatQ]; omega)) _
          noWinQ_AP i] at hm
        exact Bool.false_ne_true hm
    · apply tryA_none_of_get32
      rw [List.getElem?_drop, List.getElem?_append]
      by_cases hj : i + 32 < (strA.data ++ strP.data).length
      · rw [if_pos hj]
        intro hc
        exact slashAP (mem_of_getElem?_ge _ 673 (i + 32) '/' (by rw [lenAP] at hj; omega) hc)
      · rw [if_neg hj]
        rw [List.getElem?_append]
        by_cases hj2 : i + 32 - (strA.data ++ strP.data).length < h.length
        · rw [if_pos hj2]
          intro hc
          exact hsl (List.getElem?_mem hc)
        · rw [if_neg hj2]
          intro hc
          have hlt : i + 32 - (strA.data ++ strP.data).length - h.length < 32 := by
            rw [lenAP] at hj ⊢
            omega
          have hmem := mem_of_getElem?_lt _ 32 _ '/' hlt hc
          rw [take32_C1Q] at hmem
          exact slashC1Q8 hmem
  rw [reSubAux_skip tryA (strQ.data ++ h ++ ['"']) (strA.data ++ strP.data) _ hnoAP _ (le_refl _)]
  have hnoH : ∀ i, i < h.length →
      tryA ((h ++ (strC1.data ++ (strQ.data ++ (h0 ++ strD.data)))).drop i) = none := by
    intro i hi
    apply tryA_none_of_get32
    rw [List.getElem?_drop, List.getElem?_append]
    by_cases hj : i + 32 < h.length
    · rw [if_pos hj]
      intro hc
      exact hsl (List.getElem?_mem hc)
    · rw [if_neg hj]
      intro hc
      have hlt : i + 32 - h.length < 32 := by omega
      have hmem := mem_of_getElem?_lt _ 32 _ '/' hlt hc
      rw [take32_C1Q] at hmem
      exact slashC1Q8 hmem
  rw [reSubAux_skip tryA (strQ.data ++ h ++ ['"']) h _ hnoH _
    (by simp only [List.length_append, lenA, lenP, lenC1, lenQ, lenD]; omega)]
  have hnoC1 : ∀ i, i < strC1.data.length →
      tryA ((strC1.data ++ (strQ.data ++ (h0 ++ strD.data))).drop i) = none := by
    intro i hi
    apply tryA_none_of_get0
    rw [List.getElem?_drop, Nat.add_zero, List.getElem?_append, if_pos hi]
    intro hc
    exact eFreeC1 (List.getElem?_mem hc)
  rw [reSubAux_skip tryA (strQ.data ++ h ++ ['"']) strC1.data _ hnoC1 _
    (by simp only [List.length_append, lenA, lenP, lenC1, lenQ, lenD]; omega)]
  rw [reSubAux_matchGen tryA (strQ.data ++ h ++ ['"']) _ (44 + h0.length + 1)
    (tryA_match_here h0 hnl0)
    (by omega)
    (by
      apply List.ne_nil_of_length_pos
      simp only [List.length_append, lenQ]
      omega)
    _
    (by simp only [List.length_append, lenA, lenP, lenC1, lenQ, lenD]; omega)]
  have hdropQ : (strQ.data ++ (h0 ++ strD.data)).drop (44 + h0.length + 1) = ['\n'] := by
    rw [strD_cons]
    rw [show strQ.data ++ (h0 ++ '"' :: '\n' :: []) =
        (strQ.data ++ h0) ++ ('"' :: '\n' :: []) from by simp [List.append_assoc]]
    rw [show 44 + h0.length + 1 = (strQ.data ++ h0).length + 1 from by
      simp only [List.length_append, lenQ]]
    rw [drop_append_plus]
    rfl
  rw [hdropQ, reSubAux_nl]
  rw [strD_cons]
  simp [List.append_assoc]

/-- Splitting at a newline after a newline-free field. -/
theorem splitLines_peel (x r : List Char) (hx : '\n' ∉ x) :
    splitLines (x ++ '\n' :: r) = x :: splitLines r := by
  induction x with
  | nil => simp [splitLines]
  | cons c cs ih =>
    have hc : ¬ c = '\n' := fun he => hx (by simp [he])
    rw [List.cons_append, splitLines, if_neg hc,
      ih (fun hm => hx (by simp [hm]))]

/-- Splitting at a newline after a two-part newline-free field. -/
theorem splitLines_peel2 (x y r : List Char) (hx : '\n' ∉ x) (hy : '\n' ∉ y) :
    splitLines (x ++ (y ++ ('\n' :: r))) = (x ++ y) :: splitLines r := by
  rw [← List.append_assoc]
  exact splitLines_peel (x ++ y) r (fun hm => by
    rcases List.mem_append.mp hm with hm | hm
    · exact hx hm
    · exact hy hm)

/-- The lines of the generated values file are exactly the template lines:
28 fixed lines, the host entry, the annotations key, the external-dns line
and the trailing empty field. -/
theorem splitLines_dv (hx : List Char) (hnl : '\n' ∉ hx) :
    splitLines (defaultValuesContent hx) = defaultValuesLines hx := by
  rw [show defaultValuesContent hx =
      (strA.data ++ strP.data) ++ (hx ++ ((strC1.data ++ strQ.data) ++ (hx ++ strD.data)))
    from by simp [defaultValuesContent, List.append_assoc]]
  rw [show strA.data ++ strP.data =
      "prometheus-node-exporter:".data ++ ('\n' :: ("  enabled: false".data ++ ('\n' :: ("kube-state-metrics:".data ++ ('\n' :: ("  enabled: false".data ++ ('\n' :: ("alertmanager:".data ++ ('\n' :: ("  enabled: false".data ++ ('\n' :: ("serverFiles:".data ++ ('\n' :: ("  prometheus.yml:".data ++ ('\n' :: ("    scrape_configs:".data ++ ('\n' :: ("      - job_name: prometheus".data ++ ('\n' :: ("        static_configs:".data ++ ('\n' :: ("          - targets:".data ++ ('\n' :: ("              - localhost:9090".data ++ ('\n' :: ("      - job_name: node-exporter".data ++ ('\n' :: ("        static_configs:".data ++ ('\n' :: ("          - targets:".data ++ ('\n' :: ("              - kube-prometheus-stack-prometheus-node-exporter.monitoring:9100".data ++ ('\n' :: ("      - job_name: nginx".data ++ ('\n' :: ("        static_configs:".data ++ ('\n' :: ("          - targets:".data ++ ('\n' :: ("              - ingress-nginx-controller-metrics.ingress-nginx:10254".data ++ ('\n' :: ("server:".data ++ ('\n' :: ("  persistentVolume:".data ++ ('\n' :: ("    enabled: false".data ++ ('\n' :: ("  ingress:".data ++ ('\n' :: ("    enabled: true".data ++ ('\n' :: ("    ingressClassName: nginx".data ++ ('\n' :: ("    hosts:".data ++ ('\n' :: ("      - ".data))))))))))))))))))))))))))))))))))))))))))))))))))))))))
    from by decide]
  rw [show strC1.data ++ strQ.data = '\n' :: ("    annotations:".data ++ ('\n' :: ("      ".data ++ strQ.data))) from by decide]
  rw [strD_cons]
  rw [List.append_assoc, List.cons_append '\n', splitLines_peel _ _ (by decide)]
  rw [List.append_assoc, List.cons_append '\n', splitLines_peel _ _ (by decide)]
  rw [List.append_assoc, List.cons_append '\n', splitLines_peel _ _ (by decide)]
  rw [List.append_assoc, List.cons_append '\n', splitLines_peel _ _ (by decide)]
  rw [List.append_assoc, List.cons_append '\n', splitLines_peel _ _ (by decide)]
  rw [List.append_assoc, List.cons_append '\n', splitLines_peel _ _ (by decide)]
  rw [List.append_assoc, List.cons_append '\n', splitLines_peel _ _ (by decide)]
  rw [List.append_assoc, List.cons_append '\n', splitLines_peel _ _ (by decide)]
  rw [List.append_assoc, List.cons_append '\n', splitLines_peel _ _ (by decide)]
  rw [List.append_assoc, List.cons_append '\n', splitLines_peel _ _ (by decide)]
  rw [List.append_assoc, List.cons_append '\n', splitLines_peel _ _ (by decide)]
  rw [List.append_assoc, List.cons_append '\n', splitLines_peel _ _ (by decide)]
  rw [List.append_assoc, List.cons_append '\n', splitLines_peel _ _ (by decide)]
  rw [List.append_assoc, List.cons_append '\n', splitLines_peel _ _ (by decide)]
  rw [List.append_assoc, List.cons_append '\n', splitLines_peel _ _ (by decide)]
  rw [List.append_assoc, List.cons_append '\n', splitLines_peel _ _ (by decide)]
  rw [List.append_assoc, List.cons_append '\n', splitLines_peel _ _ (by decide)]
  rw [List.append_assoc, List.cons_append '\n', splitLines_peel _ _ (by decide)]
  rw [List.append_assoc, List.cons_append '\n', splitLines_peel _ _ (by decide)]
  rw [List.append_assoc, List.cons_append '\n', splitLines_peel _ _ (by decide)]
  rw [List.append_assoc, List.cons_append '\n', splitLines_peel _ _ (by decide)]
  rw [List.append_assoc, List.cons_append '\n', splitLines_peel _ _ (by decide)]
  rw [List.append_assoc, List.cons_append '\n', splitLines_peel _ _ (by decide)]
  rw [List.append_assoc, List.cons_append '\n', splitLines_peel _ _ (by decide)]
  rw [List.append_assoc, List.cons_append '\n', splitLines_peel _ _ (by decide)]
  rw [List.append_assoc, List.cons_append '\n', splitLines_peel _ _ (by decide)]
  rw [List.append_assoc, List.cons_append '\n', splitLines_peel _ _ (by decide)]
  rw [List.append_assoc, List.cons_append '\n', splitLines_peel _ _ (by decide)]
  rw [List.cons_append '\n']
  rw [splitLines_peel2 _ _ _ (by decide) hnl]
  rw [List.append_assoc, List.cons_append '\n', splitLines_peel _ _ (by decide)]
  rw [show ("      ".data ++ strQ.data) ++ (hx ++ ('"' :: '\n' :: [])) =
      (("      ".data ++ strQ.data) ++ (hx ++ ['"'])) ++ ('\n' :: []) from by
    rw [List.append_assoc, List.append_assoc, List.append_assoc, List.append_assoc]
    rfl]
  rw [splitLines_peel _ _ (fun hm => by
    rcases List.mem_append.mp hm with hm | hm
    · rcases List.mem_append.mp hm with hm | hm
      · revert hm; decide
      · revert hm; decide
    · rcases List.mem_append.mp hm with hm | hm
      · exact hnl hm
      · revert hm; decide)]
  simp [defaultValuesLines, splitLines, List.append_assoc]

/-- The hostname rewrite maps the generated template for one hostname to the
generated template for the other. -/
theorem updateHostname_default (h0 h : List Char)
    (hs0 : ∀ c ∈ h0, safeHostChar c = true) (hs : ∀ c ∈ h, safeHostChar c = true) :
    updateHostname h (defaultValuesContent h0) = defaultValuesContent h := by
  have hnl : '\n' ∉ h0 := fun hm => (safe_ne _ (hs0 _ hm)).2.2.2 rfl
  have hcol : ':' ∉ h0 := fun hm => (safe_ne _ (hs0 _ hm)).1 rfl
  have hsl : '/' ∉ h := fun hm => (safe_ne _ (hs _ hm)).2.1 rfl
  rw [updateHostname, pass1 h0 h hnl hcol, pass2 h0 h hnl hsl]
  simp [defaultValuesContent, List.append_assoc]

/-- The template lines list has 32 entries. -/
theorem lenDVL (hx : List Char) : (defaultValuesLines hx).length = 32 := by
  simp [defaultValuesLines]

/-! Claim theorems. -/

/-- C2: for every command outcome the Command Runner returns a
(success, output) pair and never raises: on exit code zero it returns
(True, stdout), on a nonzero exit code it returns (False, stderr), and on
any other execution failure it returns (False, exception message).  The
model function run_command is total, which is the no-raise guarantee. -/
theorem C2_run_command_contract (rc : Int) (out err msg : String) :
    (rc = 0 → run_command (.completed rc out err) = (true, out)) ∧
    (rc ≠ 0 → run_command (.completed rc out err) = (false, err)) ∧
    run_command (.raised msg) = (false, msg) := by
  refine ⟨fun h => ?_, fun h => ?_, rfl⟩ <;> simp [run_command, h]

/-- C2 witness: the contract evaluated at exit code 0, exit code 1 and a
raised exception. -/
theorem C2_run_command_contract_witness :
    run_command (.completed 0 "o" "e") = (true, "o") ∧
    run_command (.completed 1 "o" "e") = (false, "e") ∧
    run_command (.raised "m") = (false, "m") :=
  ⟨(C2_run_command_contract 0 "o" "e" "m").1 rfl,
   (C2_run_command_contract 1 "o" "e" "m").2.1 (by decide),
   (C2_run_command_contract 1 "o" "e" "m").2.2⟩

/-- C10: the status handler returns True for every namespace selection and
every resource-type choice, even an invalid one, except when the namespace
resolves to the empty string, in which case it returns False. -/
theorem C10_status_result (sys : Sys) (sel man rc dn sl : String) :
    (check_resource_status sys sel man rc dn sl).1 =
      if resolveNs (sys.run gnsCmd).1 (sys.run gnsCmd).2 sel man = "" then false else true := by
  simp only [check_resource_status]
  split <;> simp_all

/-- C6: the create-namespace handler derives the namespace as
username hyphen purpose, so the create command it issues names exactly that
string; the second conjunct instantiates the derivation at azni and prom. -/
theorem C6_namespace_derivation (sys : Sys) (u p c : String)
    (hu : u ≠ "") (hp : p ≠ "") (hc : pyLower c = "y") :
    create_namespace sys u p c =
      ((sys.run (createNsCmd (u ++ "-" ++ p))).1, [createNsCmd (u ++ "-" ++ p)]) ∧
    createNsCmd ("azni" ++ "-" ++ "prom") = createNsCmd "azni-prom" := by
  constructor
  · simp [create_namespace, hu, hp, hc]
  · rfl

/-- C6 witness: with username azni and purpose prom the handler issues
kubectl create namespace azni-prom. -/
theorem C6_namespace_derivation_witness :
    create_namespace sysOk "azni" "prom" "y" = (true, [createNsCmd "azni-prom"]) := by
  have h := C6_namespace_derivation sysOk "azni" "prom" "y" (by decide) (by decide) (by decide)
  rw [h.1]
  rfl

/-- C8 counterexample: the claim says the create command is issued only on
the exact input y, but the source lower-cases the confirmation, so the
input Y also issues the create command. -/
theorem C8_counterexample :
    (create_namespace sysOk "azni" "prom" "Y").2 = [createNsCmd "azni-prom"] ∧
    "Y" ≠ "y" := by
  constructor <;> decide

/-- C8 amended: the create-namespace handler issues the create command
exactly when the confirmation input lower-cases to y (so y and Y both
proceed); on every other confirmation input it cancels and returns failure
without invoking the create command. -/
theorem C8_confirm_lowercase_y (sys : Sys) (u p c : String)
    (hu : u ≠ "") (hp : p ≠ "") :
    (pyLower c = "y" → create_namespace sys u p c =
      ((sys.run (createNsCmd (u ++ "-" ++ p))).1, [createNsCmd (u ++ "-" ++ p)])) ∧
    (pyLower c ≠ "y" → create_namespace sys u p c = (false, [])) := by
  constructor <;> intro hc <;> simp [create_namespace, hu, hp, hc]

/-- C8 witness: the amended statement evaluated at confirmation inputs Y
and n. -/
theorem C8_confirm_lowercase_y_witness :
    create_namespace sysOk "a" "b" "Y" =
      ((sysOk.run (createNsCmd ("a" ++ "-" ++ "b"))).1, [createNsCmd ("a" ++ "-" ++ "b")]) ∧
    create_namespace sysOk "a" "b" "n" = (false, []) :=
  ⟨(C8_confirm_lowercase_y sysOk "a" "b" "Y" (by decide) (by decide)).1 (by decide),
   (C8_confirm_lowercase_y sysOk "a" "b" "n" (by decide) (by decide)).2 (by decide)⟩

/-- C3 counterexample: the claim says the namespace delete command is
invoked only on the exact input yes and that Yes cancels, but the source
lower-cases the confirmation, so the input Yes also invokes the delete
command. -/
theorem C3_counterexample :
    delNsCmd "ns1" ∈ (delete_resources sysOk "2" "1" "" "" "" "Yes").2 ∧
    "Yes" ≠ "yes" := by
  constructor <;> decide

/-- C3 amended: in the namespace-deletion path the delete command is invoked
exactly when the confirmation input lower-cases to yes (so yes, Yes and YES
all proceed); on every other input, including y and the empty string, the
handler cancels and returns without invoking the delete command. -/
theorem C3_delete_confirm (sys : Sys) (sel man rsel rman c : String)
    (hns : resolveNs (sys.run gnsCmd).1 (sys.run gnsCmd).2 sel man ≠ "") :
    (pyLower c ≠ "yes" → delete_resources sys "2" sel man rsel rman c =
      (false, [gnsCmd, getAllCmd (resolveNs (sys.run gnsCmd).1 (sys.run gnsCmd).2 sel man)])) ∧
    (pyLower c = "yes" → delete_resources sys "2" sel man rsel rman c =
      ((sys.run (delNsCmd (resolveNs (sys.run gnsCmd).1 (sys.run gnsCmd).2 sel man))).1,
       [gnsCmd, getAllCmd (resolveNs (sys.run gnsCmd).1 (sys.run gnsCmd).2 sel man),
        delNsCmd (resolveNs (sys.run gnsCmd).1 (sys.run gnsCmd).2 sel man)])) := by
  constructor <;> intro hc <;> simp [delete_resources, hns, hc]

/-- C3 witness: the amended statement evaluated in the sysOk world at
confirmation inputs y (cancels) and Yes (deletes). -/
theorem C3_delete_confirm_witness :
    delete_resources sysOk "2" "1" "" "" "" "y" = (false, [gnsCmd, getAllCmd "ns1"]) ∧
    delete_resources sysOk "2" "1" "" "" "" "Yes" =
      (true, [gnsCmd, getAllCmd "ns1", delNsCmd "ns1"]) := by
  have e : resolveNs (sysOk.run gnsCmd).1 (sysOk.run gnsCmd).2 "1" "" = "ns1" := by decide
  have h1 := (C3_delete_confirm sysOk "1" "" "" "" "y" (by rw [e]; decide)).1 (by decide)
  have h2 := (C3_delete_confirm sysOk "1" "" "" "" "Yes" (by rw [e]; decide)).2 (by decide)
  rw [e] at h1 h2
  exact ⟨h1, by rw [h2]; rfl⟩

/-- C5: for every enumerated list and selection input, a digit string whose
value v satisfies 1 le v le length picks exactly the entry displayed with
the 1-based number v (membership in the enumeration the handler prints),
and any other input is returned unchanged as a literal name; the selection
function is total, so no error is raised. -/
theorem C5_selection (ns : List String) (sel : String) :
    (isDigitStr sel = true → 1 ≤ strToNat sel → strToNat sel ≤ ns.length →
      (strToNat sel, selectFromList ns sel) ∈ List.enumFrom 1 ns) ∧
    (¬ (isDigitStr sel = true ∧ 1 ≤ strToNat sel ∧ strToNat sel ≤ ns.length) →
      selectFromList ns sel = sel) := by
  constructor
  · intro hd h1 h2
    have hlt : strToNat sel - 1 < ns.length := by omega
    have hget : ns[strToNat sel - 1]? = some (ns.getD (strToNat sel - 1) "") := by
      rw [List.getD_eq_getElem?_getD, List.getElem?_eq_getElem hlt]
      rfl
    have hmem : (List.enumFrom 1 ns)[strToNat sel - 1]? =
        some (strToNat sel, ns.getD (strToNat sel - 1) "") := by
      rw [List.getElem?_enumFrom, hget]
      have : 1 + (strToNat sel - 1) = strToNat sel := by omega
      simp [this]
    have := List.getElem?_mem hmem
    simpa [selectFromList, hd, h1, h2] using this
  · intro h
    rw [selectFromList, if_neg h]

/-- C5 witness: selection 2 from a two-element list picks the entry shown as
number 2, and a non-numeric input is returned as a literal name. -/
theorem C5_selection_witness :
    (strToNat "2", selectFromList ["alpha", "beta"] "2") ∈ List.enumFrom 1 ["alpha", "beta"] ∧
    selectFromList ["alpha", "beta"] "junk" = "junk" :=
  ⟨(C5_selection ["alpha", "beta"] "2").1 (by decide) (by decide) (by decide),
   (C5_selection ["alpha", "beta"] "junk").2 (by decide)⟩

/-- C7: in the deploy handler an empty release-name answer defaults the
release to the namespace with -prom appended: the helm install command the
handler invokes names exactly that release. -/
theorem C7_default_release (sys : Sys) (sel man host : String)
    (h1 : (sys.run hvCmd).1 = true) (h2 : (sys.run addCmd).1 = true)
    (h3 : (sys.run updCmd).1 = true)
    (hns : resolveNs (sys.run gnsCmd).1 (sys.run gnsCmd).2 sel man ≠ "") :
    helmInstallCmd (resolveNs (sys.run gnsCmd).1 (sys.run gnsCmd).2 sel man ++ "-prom")
        (resolveNs (sys.run gnsCmd).1 (sys.run gnsCmd).2 sel man) ∈
      (deploy_prometheus sys sel man "" host).2.1 := by
  by_cases hi : (sys.run (helmInstallCmd
      (resolveNs (sys.run gnsCmd).1 (sys.run gnsCmd).2 sel man ++ "-prom")
      (resolveNs (sys.run gnsCmd).1 (sys.run gnsCmd).2 sel man))).1 <;>
    simp [deploy_prometheus, deployCore, h1, h2, h3, hns, hi]

/-- C7 witness: with the single namespace team-prom selected and an empty
release answer, the handler issues helm upgrade --install team-prom-prom. -/
theorem C7_default_release_witness :
    helmInstallCmd "team-prom-prom" "team-prom" ∈
      (deploy_prometheus sysTeam "1" "" "" "h.example.com").2.1 := by
  have e : resolveNs (sysTeam.run gnsCmd).1 (sysTeam.run gnsCmd).2 "1" "" = "team-prom" := by
    decide
  have h := C7_default_release sysTeam "1" "" "h.example.com" rfl rfl rfl (by rw [e]; decide)
  rw [e] at h
  exact h

/-- C1 counterexample: the claim says an empty namespace input makes the
enclosing handler return failure without invoking any external command, but
the status handler has already invoked the namespace listing command before
it reads the selection, so it returns failure with a nonempty command
trace. -/
theorem C1_counterexample :
    (check_resource_status sysOk "" "" "1" "" "").1 = false ∧
    (check_resource_status sysOk "" "" "1" "" "").2 ≠ [] := by
  constructor <;> decide

/-- C1 amended: on an empty required field each handler returns failure
without invoking any further external command.  The create-namespace handler
has issued no command at all at that point, so its trace is empty; the
deploy, delete and status handlers have already issued their setup and
namespace-listing commands, and the trace stops there, with the deploy,
create and delete commands never invoked. -/
theorem C1_empty_required_fields (sys : Sys) :
    (∀ p c, create_namespace sys "" p c = (false, [])) ∧
    (∀ u c, u ≠ "" → create_namespace sys u "" c = (false, [])) ∧
    (∀ sel man rel host,
      (sys.run hvCmd).1 = true → (sys.run addCmd).1 = true → (sys.run updCmd).1 = true →
      resolveNs (sys.run gnsCmd).1 (sys.run gnsCmd).2 sel man = "" →
      deploy_prometheus sys sel man rel host = (false, [hvCmd, addCmd, updCmd, gnsCmd], none)) ∧
    (∀ sel man rsel rman c,
      resolveNs (sys.run gnsCmd).1 (sys.run gnsCmd).2 sel man = "" →
      delete_resources sys "1" sel man rsel rman c = (false, [gnsCmd])) ∧
    (∀ sel man rsel rman c,
      resolveNs (sys.run gnsCmd).1 (sys.run gnsCmd).2 sel man = "" →
      delete_resources sys "2" sel man rsel rman c = (false, [gnsCmd])) ∧
    (∀ sel man rc dn sl,
      resolveNs (sys.run gnsCmd).1 (sys.run gnsCmd).2 sel man = "" →
      check_resource_status sys sel man rc dn sl = (false, [gnsCmd])) := by
  refine ⟨fun p c => rfl, fun u c hu => ?_, fun sel man rel host h1 h2 h3 hns => ?_,
    fun sel man rsel rman c hns => ?_, fun sel man rsel rman c hns => ?_,
    fun sel man rc dn sl hns => ?_⟩
  · simp [create_namespace, hu]
  · simp [deploy_prometheus, deployCore, h1, h2, h3, hns]
  · simp [delete_resources, hns]
  · simp [delete_resources, hns]
  · simp [check_resource_status, hns]

/-- C1 witness: the amended statement evaluated in the sysOk world, where
the namespace listing succeeds and the empty selection resolves to the
empty namespace. -/
theorem C1_empty_required_fields_witness :
    create_namespace sysOk "" "p" "y" = (false, []) ∧
    create_namespace sysOk "u" "" "y" = (false, []) ∧
    deploy_prometheus sysOk "" "" "r" "h" = (false, [hvCmd, addCmd, updCmd, gnsCmd], none) ∧
    delete_resources sysOk "1" "" "" "" "" "" = (false, [gnsCmd]) ∧
    delete_resources sysOk "2" "" "" "" "" "" = (false, [gnsCmd]) ∧
    check_resource_status sysOk "" "" "1" "" "" = (false, [gnsCmd]) :=
  ⟨(C1_empty_required_fields sysOk).1 "p" "y",
   (C1_empty_required_fields sysOk).2.1 "u" "y" (by decide),
   (C1_empty_required_fields sysOk).2.2.1 "" "" "r" "h" rfl rfl rfl (by decide),
   (C1_empty_required_fields sysOk).2.2.2.1 "" "" "" "" "" (by decide),
   (C1_empty_required_fields sysOk).2.2.2.2.1 "" "" "" "" "" (by decide),
   (C1_empty_required_fields sysOk).2.2.2.2.2 "" "" "1" "" "" (by decide)⟩

/-- C9: in the release-deletion path, when the helm list command fails, or
returns empty output, or output whose strip is the empty JSON list, or
output that does not parse as JSON, the handler falls back to the manual
release prompt (defaulting to namespace-prom on an empty answer) and still
proceeds to the uninstall command instead of aborting. -/
theorem C9_release_list_fallback (sys : Sys) (sel man rsel rman c : String)
    (hns : resolveNs (sys.run gnsCmd).1 (sys.run gnsCmd).2 sel man ≠ "")
    (hfb : ¬ ((sys.run (helmListCmd (resolveNs (sys.run gnsCmd).1 (sys.run gnsCmd).2 sel man))).1 = true ∧
              (sys.run (helmListCmd (resolveNs (sys.run gnsCmd).1 (sys.run gnsCmd).2 sel man))).2 ≠ "" ∧
              pyStrip (sys.run (helmListCmd (resolveNs (sys.run gnsCmd).1 (sys.run gnsCmd).2 sel man))).2 ≠ "[]") ∨
          sys.parseRel (sys.run (helmListCmd (resolveNs (sys.run gnsCmd).1 (sys.run gnsCmd).2 sel man))).2 = none) :
    delete_resources sys "1" sel man rsel rman c =
      ((sys.run (helmUninstallCmd
          (if rman = "" then resolveNs (sys.run gnsCmd).1 (sys.run gnsCmd).2 sel man ++ "-prom" else rman)
          (resolveNs (sys.run gnsCmd).1 (sys.run gnsCmd).2 sel man))).1,
       [gnsCmd,
        helmListCmd (resolveNs (sys.run gnsCmd).1 (sys.run gnsCmd).2 sel man),
        helmUninstallCmd
          (if rman = "" then resolveNs (sys.run gnsCmd).1 (sys.run gnsCmd).2 sel man ++ "-prom" else rman)
          (resolveNs (sys.run gnsCmd).1 (sys.run gnsCmd).2 sel man)]) := by
  rcases hfb with hfb | hfb
  · simp [delete_resources, hns, if_neg hfb]
  · by_cases hg : (sys.run (helmListCmd (resolveNs (sys.run gnsCmd).1 (sys.run gnsCmd).2 sel man))).1 = true ∧
        (sys.run (helmListCmd (resolveNs (sys.run gnsCmd).1 (sys.run gnsCmd).2 sel man))).2 ≠ "" ∧
        pyStrip (sys.run (helmListCmd (resolveNs (sys.run gnsCmd).1 (sys.run gnsCmd).2 sel man))).2 ≠ "[]"
    · simp [delete_resources, hns, hg, hfb]
    · simp [delete_resources, hns, if_neg hg]

/-- C9 witness: in a world where the release listing returns text that does
not parse as JSON and the manual answer is empty, the handler uninstalls
the default release ns1-prom. -/
theorem C9_release_list_fallback_witness :
    delete_resources sysFb "1" "1" "" "" "" "" =
      (true, [gnsCmd, helmListCmd "ns1", helmUninstallCmd "ns1-prom" "ns1"]) := by
  have e : resolveNs (sysFb.run gnsCmd).1 (sysFb.run gnsCmd).2 "1" "" = "ns1" := by decide
  have h := C9_release_list_fallback sysFb "1" "" "" "" ""
    (by rw [e]; decide) (Or.inr (by rfl))
  rw [e] at h
  rw [h]
  rfl

/-- C4 counterexample: the claim quantifies over every input file content,
but the two substitutions are global regex replacements with whitespace
freedom, so on a file whose hosts key carries a trailing space the rewrite
also rewrites that key line: the input line with the trailing space (which
is neither the host-list entry nor the annotation line) is not present in
the output, so not every other line is byte-identical. -/
theorem C4_counterexample :
    "hosts: ".data ∈ splitLines ("hosts: \n- a\nz".data) ∧
    splitLines (updateHostname "b.example.com".data "hosts: \n- a\nz".data) =
      ["hosts:".data, "      - b.example.com".data, "z".data] ∧
    "hosts: ".data ∉ splitLines (updateHostname "b.example.com".data "hosts: \n- a\nz".data) :=
  ⟨by decide, by decide, by decide⟩

/-- C4 amended: when the existing values file is the tool's own generated
default file (for any previous hostname built from safe hostname
characters), the rewrite with a new safe hostname produces exactly the
generated file for the new hostname, and every line other than the
host-list entry (line index 28) and the external-dns annotation line (line
index 30) is byte-identical to the corresponding input line. -/
theorem C4_hostname_rewrite (h0 h : List Char)
    (hs0 : ∀ c ∈ h0, safeHostChar c = true) (hs : ∀ c ∈ h, safeHostChar c = true) :
    updateHostname h (defaultValuesContent h0) = defaultValuesContent h ∧
    ∀ i : Nat, i ≠ 28 → i ≠ 30 →
      (splitLines (updateHostname h (defaultValuesContent h0)))[i]? =
        (splitLines (defaultValuesContent h0))[i]? := by
  have hmain := updateHostname_default h0 h hs0 hs
  refine ⟨hmain, fun i h28 h30 => ?_⟩
  have hnl0 : '\n' ∉ h0 := fun hm => (safe_ne _ (hs0 _ hm)).2.2.2 rfl
  have hnlh : '\n' ∉ h := fun hm => (safe_ne _ (hs _ hm)).2.2.2 rfl
  rw [hmain, splitLines_dv h hnlh, splitLines_dv h0 hnl0]
  by_cases hlt : i < 32
  · interval_cases i <;> simp_all [defaultValuesLines]
  · rw [List.getElem?_eq_none (by rw [lenDVL]; omega),
      List.getElem?_eq_none (by rw [lenDVL]; omega)]

/-- C4 witness: the amended statement evaluated at two concrete safe
hostnames, with the host entry rewritten and the first line unchanged. -/
theorem C4_hostname_rewrite_witness :
    updateHostname "new.sctp-sandbox.com".data
        (defaultValuesContent "old.sctp-sandbox.com".data) =
      defaultValuesContent "new.sctp-sandbox.com".data ∧
    (splitLines (updateHostname "new.sctp-sandbox.com".data
        (defaultValuesContent "old.sctp-sandbox.com".data)))[0]? =
      (splitLines (defaultValuesContent "old.sctp-sandbox.com".data))[0]? := by
  have hc := C4_hostname_rewrite "old.sctp-sandbox.com".data "new.sctp-sandbox.com".data
    (by decide) (by decide)
  exact ⟨hc.1, hc.2 0 (by decide) (by decide)⟩

end K8s
